import Mathlib

/-!
Shallow embedding of the core of `src/script/poll_430.py` (TfL route-430
prediction-drift tracker): the prediction ledger (`update_predictions`),
the arrival matcher and phantom reaper (`detect_arrivals_and_score`),
the stop-metadata cache (`ensure_stop_metadata`), and the snapshot
exporter (`export_geojson` with `bias_color`).

Python dicts are modelled as insertion-ordered association lists
(`dictGet`/`dictSet`/`dictPop` reproduce `d.get`, `d[k] = v` /
`setdefault`, and `d.pop`).  Python floats are modelled as exact
rationals; Python `round` (round-half-to-even) as `pyRoundInt`/`roundTo`.
Feed records are modelled post-parse: a field that is missing or falsy
(`None` or the empty string) is `none`; in particular the
`expectedArrival` field carries the already-parsed timestamp.
-/

namespace TflDrift

/-- Tuning constants from the top of the script. -/
def ARRIVAL_TTS_SEC : Int := 30

/-- Maximum retention age of a prediction, seconds (25 minutes). -/
def PREDICTION_MAX_AGE_SEC : Int := 25 * 60

/-- Grace period before an unmatched prediction is called phantom (6 minutes). -/
def PHANTOM_GRACE_SEC : Int := 6 * 60

/-- Lookup in an insertion-ordered association list, as Python `d.get(k)`. -/
def dictGet {κ α : Type} [DecidableEq κ] (m : List (κ × α)) (k : κ) : Option α :=
  match m with
  | [] => none
  | kv :: rest => if kv.1 = k then some kv.2 else dictGet rest k

/-- Update-or-append in an insertion-ordered association list, as Python
`d[k] = v`: an existing key keeps its position, a new key goes to the end. -/
def dictSet {κ α : Type} [DecidableEq κ] (m : List (κ × α)) (k : κ) (v : α) :
    List (κ × α) :=
  match m with
  | [] => [(k, v)]
  | kv :: rest => if kv.1 = k then (k, v) :: rest else kv :: dictSet rest k v

/-- Truthiness of an optional string field: `None` and `""` are falsy. -/
def truthyStr : Option String → Option String
  | none => none
  | some s => if s = "" then none else some s

/-- Prediction record, exactly the dict built in `update_predictions`
(`vehicleId`, `predictionTs`, `timeToStation`, `expectedArrivalTs`,
`matched`), plus the fields added later by the matcher
(`actualArrivalTs`, `driftSec`, absent as `none`) and the reaper
(`phantom`, absent as `false`). -/
structure Pred where
  vehicleId : String
  predictionTs : Int
  timeToStation : Int
  expectedArrivalTs : Int
  matched : Bool
  phantom : Bool
  actualArrivalTs : Option Int
  driftSec : Option Int
deriving DecidableEq

/-- Per-stop rolling statistics dict: `samples`, `sumDriftSec`, `phantoms`. -/
structure Stats where
  samples : Nat
  sumDriftSec : ℚ
  phantoms : Nat
deriving DecidableEq

/-- Stop metadata dict: `lat`, `lon` (unresolved as `none`), `name`. -/
structure StopMeta where
  lat : Option ℚ
  lon : Option ℚ
  name : String
deriving DecidableEq

/-- One feed record, with the fields the script reads; a missing or falsy
field is `none`. -/
structure Obs where
  naptanId : Option String
  vehicleId : Option String
  timeToStation : Option Int
  expectedArrival : Option Int
  stationName : Option String
  platformName : Option String
deriving DecidableEq

abbrev PredsMap := List (String × List Pred)

abbrev StatsMap := List (String × Stats)

abbrev StopsMap := List (String × StopMeta)

/-- Fresh prediction record as appended by `update_predictions`. -/
def mkRec (ts : Int) (veh : String) (tts : Int) (expArr : Int) : Pred :=
  { vehicleId := veh, predictionTs := ts, timeToStation := tts,
    expectedArrivalTs := expArr, matched := false, phantom := false,
    actualArrivalTs := none, driftSec := none }

/-- Ingestion of one observation in `update_predictions`: skip it when a
required field is missing, otherwise append a fresh record to the stop's
list (`setdefault(stop_id, []).append(rec)`). -/
def ingestObs (ts : Int) (m : PredsMap) (a : Obs) : PredsMap :=
  match truthyStr a.naptanId, truthyStr a.vehicleId, a.timeToStation,
      a.expectedArrival with
  | some sid, some vid, some tts, some ea =>
      dictSet m sid (((dictGet m sid).getD []) ++ [mkRec ts vid tts ea])
  | _, _, _, _ => m

/-- Per-stop pruning in `update_predictions`: keep records whose age
`ts - predictionTs` is at most the maximum age. -/
def pruneStop (ts maxAge : Int) (preds : List Pred) : List Pred :=
  preds.filter (fun p => ts - p.predictionTs ≤ maxAge)

/-- Pruning pass of `update_predictions`: prune every stop's list and drop
stops whose list became empty. -/
def prunePreds (ts maxAge : Int) (m : PredsMap) : PredsMap :=
  (m.map (fun kv => (kv.1, pruneStop ts maxAge kv.2))).filter
    (fun kv => !kv.2.isEmpty)

/-- Whole of `update_predictions`: ingest each observation of the batch,
then prune old predictions, at current time `ts`. -/
def update_predictions (ts maxAge : Int) (m : PredsMap) (arrivals : List Obs) :
    PredsMap :=
  prunePreds ts maxAge (arrivals.foldl (ingestObs ts) m)

/-- Candidate test of the matcher: an unmatched prediction for this vehicle. -/
def isCand (vid : String) (p : Pred) : Bool :=
  (!p.matched) && (p.vehicleId == vid)

/-- Mutation of the first element satisfying `q`, in place, as the Python
loop that breaks at the first candidate and mutates it. -/
def updateFirst (q : Pred → Bool) (f : Pred → Pred) : List Pred → List Pred
  | [] => []
  | p :: rest => if q p then f p :: rest else p :: updateFirst q f rest

/-- Mutation applied to the matched candidate: set `matched`, record
`actualArrivalTs = ts_now + max(0, tts)` and
`driftSec = (predictionTs + timeToStation) - actualArrivalTs`. -/
def applyMatch (now tts : Int) (p : Pred) : Pred :=
  { p with matched := true,
           actualArrivalTs := some (now + max 0 tts),
           driftSec := some (p.predictionTs + p.timeToStation - (now + max 0 tts)) }

/-- Stats update on a match: `setdefault` then increment `samples` and add
the drift to `sumDriftSec`. -/
def recordMatch (stats : StatsMap) (sid : String) (drift : Int) : StatsMap :=
  let s := (dictGet stats sid).getD ⟨0, 0, 0⟩
  dictSet stats sid
    { s with samples := s.samples + 1, sumDriftSec := s.sumDriftSec + (drift : ℚ) }

/-- Indexing step for one arrival in `detect_arrivals_and_score`: record
`(stop, vehicle) -> timeToStation`, skipping records with a missing stop,
vehicle or time-to-station (the expected-arrival field is NOT checked
here). -/
def currStep (acc : List ((String × String) × Int)) (a : Obs) :
    List ((String × String) × Int) :=
  match truthyStr a.naptanId, truthyStr a.vehicleId, a.timeToStation with
  | some sid, some vid, some tts => dictSet acc (sid, vid) tts
  | _, _, _ => acc

/-- Indexing of the current arrivals by `(stop, vehicle) -> timeToStation`. -/
def buildCurr (arrivals : List Obs) : List ((String × String) × Int) :=
  arrivals.foldl currStep []

/-- Matcher body for one `(stop, vehicle) -> tts` entry: skip unless
arriving (`tts ≤ threshold`), choose the first unmatched prediction for
the vehicle in the stop's list, mutate it and update the stats. -/
def matchStep (now threshold : Int) (st : PredsMap × StatsMap)
    (e : (String × String) × Int) : PredsMap × StatsMap :=
  if threshold < e.2 then st
  else
    let preds := (dictGet st.1 e.1.1).getD []
    match preds.find? (isCand e.1.2) with
    | none => st
    | some cand =>
        (dictSet st.1 e.1.1 (updateFirst (isCand e.1.2) (applyMatch now e.2) preds),
         recordMatch st.2 e.1.1
           (cand.predictionTs + cand.timeToStation - (now + max 0 e.2)))

/-- Reaper test: a still-unmatched prediction past its grace window. -/
def willReap (now grace : Int) (p : Pred) : Bool :=
  (!p.matched) && decide (p.expectedArrivalTs + grace < now)

/-- Reaper mutation of one prediction: mark `matched` and `phantom` when
`now > expectedArrivalTs + grace`, otherwise leave it alone. -/
def reapCell (now grace : Int) (p : Pred) : Pred :=
  if willReap now grace p then { p with matched := true, phantom := true } else p

/-- Stats side of the reaper for one stop: `setdefault` the stop's entry
(unconditionally, even when nothing is reaped) and add the number of
newly reaped predictions to `phantoms`. -/
def phantomStatsStep (now grace : Int) (stats : StatsMap) (kv : String × List Pred) :
    StatsMap :=
  let s := (dictGet stats kv.1).getD ⟨0, 0, 0⟩
  dictSet stats kv.1
    { s with phantoms := s.phantoms + (kv.2.filter (willReap now grace)).length }

/-- Phantom-detection pass over every stop of the predictions map. -/
def reapPhantoms (now grace : Int) (st : PredsMap × StatsMap) : PredsMap × StatsMap :=
  (st.1.map (fun kv => (kv.1, kv.2.map (reapCell now grace))),
   st.1.foldl (phantomStatsStep now grace) st.2)

/-- Whole of `detect_arrivals_and_score`: index the arrivals, run the
matcher over each current `(stop, vehicle)` entry, then run the phantom
pass over the resulting state. -/
def detect_arrivals_and_score (now threshold grace : Int)
    (preds : PredsMap) (stats : StatsMap) (arrivals : List Obs) :
    PredsMap × StatsMap :=
  reapPhantoms now grace ((buildCurr arrivals).foldl (matchStep now threshold) (preds, stats))

/-- Result of one external `fetch_stop_point` call, post-parse: each field
taken with `.get`, so possibly absent. -/
structure Resolved where
  lat : Option ℚ
  lon : Option ℚ
  commonName : Option String
deriving DecidableEq

/-- Stub name chosen at stub creation:
`a.get("stationName") or a.get("platformName") or stop_id`. -/
def stubName (a : Obs) (sid : String) : String :=
  match truthyStr a.stationName with
  | some n => n
  | none =>
    match truthyStr a.platformName with
    | some n => n
    | none => sid

/-- Successful-fetch branch of `ensure_stop_metadata`: overwrite `lat` and
`lon` with the fetched values and the name with `commonName` when truthy. -/
def applyResolved (stops : StopsMap) (sid : String) (sp : Resolved) : StopsMap :=
  let cur := (dictGet stops sid).getD ⟨none, none, sid⟩
  dictSet stops sid
    { lat := sp.lat, lon := sp.lon, name := (truthyStr sp.commonName).getD cur.name }

/-- Body of `ensure_stop_metadata` for one arrival record.  The resolver
models `fetch_stop_point` (`none` models a raised exception, swallowed by
the script); the `Nat` component counts external calls made. -/
def ensureStep (resolver : String → Option Resolved)
    (acc : StopsMap × Nat) (a : Obs) : StopsMap × Nat :=
  match truthyStr a.naptanId with
  | none => acc
  | some sid =>
    match dictGet acc.1 sid with
    | some st =>
        if st.lat.isSome && st.lon.isSome then acc
        else
          match resolver sid with
          | none => (acc.1, acc.2 + 1)
          | some sp => (applyResolved acc.1 sid sp, acc.2 + 1)
    | none =>
        let stops := dictSet acc.1 sid ⟨none, none, stubName a sid⟩
        match resolver sid with
        | none => (stops, acc.2 + 1)
        | some sp => (applyResolved stops sid sp, acc.2 + 1)

/-- Whole of `ensure_stop_metadata` over a batch of arrivals, returning the
updated stops map and the number of external calls made. -/
def ensure_stop_metadata (resolver : String → Option Resolved)
    (stops : StopsMap) (arrivals : List Obs) : StopsMap × Nat :=
  arrivals.foldl (ensureStep resolver) (stops, 0)

/-- Colour classification of `bias_color` (the red string lacks the `#`,
as in the source). -/
def bias_color (bias : ℚ) : String :=
  if |bias| < 60 then "#00ff00"
  else if |bias| < 180 then "#f1c40f"
  else "ff0000"

/-- Python `round` to an integer on exact rationals: round half to even. -/
def pyRoundInt (q : ℚ) : ℤ :=
  let f : ℤ := ⌊q⌋
  if q - (f : ℚ) < 1 / 2 then f
  else if (1 : ℚ) / 2 < q - (f : ℚ) then f + 1
  else if f % 2 = 0 then f else f + 1

/-- Python `round(q, d)` on exact rationals. -/
def roundTo (d : Nat) (q : ℚ) : ℚ :=
  ((pyRoundInt (q * (10 : ℚ) ^ d) : ℤ) : ℚ) / (10 : ℚ) ^ d

/-- Properties and geometry of one emitted GeoJSON feature. -/
structure Feature where
  stopId : String
  name : String
  direction : Option String
  predictionDriftSec : ℚ
  samples : Nat
  phantomRate : ℚ
  color : String
  lon : ℚ
  lat : ℚ
deriving DecidableEq

/-- Feature built by `export_geojson` for one stops-map entry: `none` when
either coordinate is unresolved, otherwise the feature with the derived
metrics (`sumDriftSec / samples` when `samples > 0` else `0`;
`phantoms / max 1 (samples + phantoms)`), rounded to 1 and 3 decimal
places respectively. -/
def exportFeature (direction : Option String) (stats : StatsMap)
    (kv : String × StopMeta) : Option Feature :=
  match kv.2.lat, kv.2.lon with
  | some la, some lo =>
    let st := (dictGet stats kv.1).getD ⟨0, 0, 0⟩
    let bias : ℚ := if 0 < st.samples then st.sumDriftSec / (st.samples : ℚ) else 0
    let rate : ℚ := (st.phantoms : ℚ) / ((max 1 (st.samples + st.phantoms) : ℕ) : ℚ)
    some { stopId := kv.1, name := kv.2.name, direction := direction,
           predictionDriftSec := roundTo 1 bias, samples := st.samples,
           phantomRate := roundTo 3 rate, color := bias_color bias,
           lon := lo, lat := la }
  | _, _ => none

/-- Feature list of `export_geojson`: one feature per stop with resolved
coordinates, in stops-map order. -/
def export_geojson (direction : Option String) (stops : StopsMap)
    (stats : StatsMap) : List Feature :=
  stops.filterMap (exportFeature direction stats)

/-- Spec-side definition, following the spec's words, for comparison with
the exporter: `meanDriftSec = driftSecSum / sampleCount` (0 if no samples). -/
def specMeanDrift (st : Stats) : ℚ :=
  if st.samples = 0 then 0 else st.sumDriftSec / (st.samples : ℚ)

/-- Spec-side definition, following the spec's words, for comparison with
the exporter: `phantomRate = phantomCount / (sampleCount + phantomCount)`
(0 if the denominator is 0). -/
def specPhantomRate (st : Stats) : ℚ :=
  if st.samples + st.phantoms = 0 then 0
  else (st.phantoms : ℚ) / ((st.samples + st.phantoms : ℕ) : ℚ)

/-- Identity fields of a prediction record: the ones never touched by the
matcher or the reaper. -/
def identKey (p : Pred) : String × Int × Int × Int :=
  (p.vehicleId, p.predictionTs, p.timeToStation, p.expectedArrivalTs)

/-- Sortedness of a stop's list by creation timestamp. -/
def sortedTs (L : List Pred) : Prop :=
  L.Pairwise (fun a b => a.predictionTs ≤ b.predictionTs)

/-- Observation with a missing required field, per the ingestion guard. -/
def malformedObs (a : Obs) : Prop :=
  truthyStr a.naptanId = none ∨ truthyStr a.vehicleId = none ∨
    a.timeToStation = none ∨ a.expectedArrival = none

/-- Per-stop monotonicity order on stats maps: every entry survives with
sample and phantom counters at least as large. -/
def statsGe (m m' : StatsMap) : Prop :=
  ∀ sid s, dictGet m sid = some s →
    ∃ s', dictGet m' sid = some s' ∧ s.samples ≤ s'.samples ∧ s.phantoms ≤ s'.phantoms

theorem dictGet_dictSet {κ α : Type} [DecidableEq κ] (m : List (κ × α)) (k k' : κ)
    (v : α) : dictGet (dictSet m k v) k' = if k = k' then some v else dictGet m k' := by
  induction m with
  | nil =>
    by_cases h : k = k' <;> simp [dictGet, dictSet, h]
  | cons kv rest ih =>
    by_cases h1 : kv.1 = k
    · by_cases h2 : k = k' <;> simp [dictGet, dictSet, h1, h2]
    · by_cases h2 : k = k'
      · subst h2
        simp [dictGet, dictSet, h1, ih]
      · simp [dictGet, dictSet, h1, ih, h2]

theorem find?_prefix_cons (q : Pred → Bool) (l1 l2 : List Pred) (c : Pred)
    (h1 : ∀ p ∈ l1, q p = false) (hc : q c = true) :
    (l1 ++ c :: l2).find? q = some c := by
  induction l1 with
  | nil => simpa using List.find?_cons_of_pos l2 hc
  | cons p rest ih =>
    have hp : ¬ q p = true := by simp [h1 p (by simp)]
    have := ih (fun x hx => h1 x (by simp [hx]))
    rw [List.cons_append, List.find?_cons_of_neg _ hp]
    exact this

theorem updateFirst_prefix_cons (q : Pred → Bool) (f : Pred → Pred)
    (l1 l2 : List Pred) (c : Pred)
    (h1 : ∀ p ∈ l1, q p = false) (hc : q c = true) :
    updateFirst q f (l1 ++ c :: l2) = l1 ++ f c :: l2 := by
  induction l1 with
  | nil => simp [updateFirst, hc]
  | cons p rest ih =>
    have hp : q p = false := h1 p (by simp)
    have := ih (fun x hx => h1 x (by simp [hx]))
    simp [updateFirst, hp, this]

theorem matchStep_found (now threshold : Int) (preds : PredsMap) (stats : StatsMap)
    (sid vid : String) (tts : Int) (cand : Pred)
    (htts : tts ≤ threshold)
    (hfind : ((dictGet preds sid).getD []).find? (isCand vid) = some cand) :
    matchStep now threshold (preds, stats) ((sid, vid), tts) =
      (dictSet preds sid
         (updateFirst (isCand vid) (applyMatch now tts) ((dictGet preds sid).getD [])),
       recordMatch stats sid
         (cand.predictionTs + cand.timeToStation - (now + max 0 tts))) := by
  unfold matchStep
  rw [if_neg (by omega)]
  simp only [hfind]

/-- Claim C1: on a match (observation with time-to-station at most the
threshold, paired with the first open prediction for that vehicle at that
stop) the matcher sets `actualArrivalTs = now + max 0 tts`, takes the
predicted arrival as `predictionTs + timeToStation` of the prediction,
stores `driftSec` as their difference (predicted minus actual), marks the
prediction matched, and accumulates the drift into the stop's stats. -/
theorem C1_match_fields (now threshold : Int) (preds : PredsMap) (stats : StatsMap)
    (sid vid : String) (tts : Int) (l1 l2 : List Pred) (cand : Pred)
    (htts : tts ≤ threshold)
    (hL : (dictGet preds sid).getD [] = l1 ++ cand :: l2)
    (hl1 : ∀ p ∈ l1, isCand vid p = false)
    (hcand : isCand vid cand = true) :
    matchStep now threshold (preds, stats) ((sid, vid), tts) =
      (dictSet preds sid (l1 ++
         { cand with matched := true,
                     actualArrivalTs := some (now + max 0 tts),
                     driftSec := some (cand.predictionTs + cand.timeToStation
                                        - (now + max 0 tts)) } :: l2),
       recordMatch stats sid
         (cand.predictionTs + cand.timeToStation - (now + max 0 tts))) := by
  have hfind : ((dictGet preds sid).getD []).find? (isCand vid) = some cand := by
    rw [hL]; exact find?_prefix_cons _ l1 l2 cand hl1 hcand
  rw [matchStep_found now threshold preds stats sid vid tts cand htts hfind, hL,
    updateFirst_prefix_cons _ _ l1 l2 cand hl1 hcand]
  rfl

/-- Witness for C1, the spec's scenario: a prediction ingested at `t = 0`
with `timeToStation = 300`, observation at `t = 290` with
`timeToStation = 8`, yielding `actualArrivalTs = 298` and `driftSec = 2`. -/
theorem C1_match_fields_witness :
    matchStep 290 30 ([("S", [mkRec 0 "V" 300 300])], []) (("S", "V"), 8) =
      ([("S", [{ mkRec 0 "V" 300 300 with
                 matched := true, actualArrivalTs := some 298, driftSec := some 2 }])],
       [("S", ⟨1, 2, 0⟩)]) := by
  have h := C1_match_fields 290 30 [("S", [mkRec 0 "V" 300 300])] [] "S" "V" 8
    [] [] (mkRec 0 "V" 300 300) (by decide) rfl (by simp) (by decide)
  rw [h]
  simp [dictSet, recordMatch, dictGet, mkRec, max_def]

/-- Claim C2: when a stop's list holds two or more open predictions for
the arriving vehicle, the matcher selects the first one in insertion
order, which under creation-order sortedness is the one with the earliest
creation timestamp, and mutates exactly that one. -/
theorem C2_oldest_first (now threshold : Int) (preds : PredsMap) (stats : StatsMap)
    (sid vid : String) (tts : Int) (l1 l2 : List Pred) (p1 : Pred)
    (htts : tts ≤ threshold)
    (hL : (dictGet preds sid).getD [] = l1 ++ p1 :: l2)
    (hsorted : sortedTs (l1 ++ p1 :: l2))
    (hl1 : ∀ p ∈ l1, isCand vid p = false)
    (hp1 : isCand vid p1 = true)
    (_hp2 : ∃ p ∈ l2, isCand vid p = true) :
    ((dictGet preds sid).getD []).find? (isCand vid) = some p1
    ∧ (∀ p ∈ (dictGet preds sid).getD [], isCand vid p = true →
         p1.predictionTs ≤ p.predictionTs)
    ∧ (matchStep now threshold (preds, stats) ((sid, vid), tts)).1
        = dictSet preds sid (l1 ++ applyMatch now tts p1 :: l2) := by
  have hfind : ((dictGet preds sid).getD []).find? (isCand vid) = some p1 := by
    rw [hL]; exact find?_prefix_cons _ l1 l2 p1 hl1 hp1
  refine ⟨hfind, ?_, ?_⟩
  · intro p hp hcp
    rw [hL] at hp
    rcases List.mem_append.mp hp with h | h
    · rw [hl1 p h] at hcp; cases hcp
    · rcases List.mem_cons.mp h with h | h
      · rw [h]
      · have htail : (l1 ++ p1 :: l2).Pairwise
            (fun a b => a.predictionTs ≤ b.predictionTs) := hsorted
        have := (List.pairwise_append.mp htail).2.1
        exact (List.pairwise_cons.mp this).1 p h
  · rw [matchStep_found now threshold preds stats sid vid tts p1 htts hfind, hL,
      updateFirst_prefix_cons _ _ l1 l2 p1 hl1 hp1]

/-- Witness for C2: two open predictions for vehicle V at stop S, created
at times 0 and 50; the matcher picks the one created at 0. -/
theorem C2_oldest_first_witness :
    (matchStep 290 30 ([("S", [mkRec 0 "V" 300 300, mkRec 50 "V" 260 310])], [])
        (("S", "V"), 8)).1
      = [("S", [applyMatch 290 8 (mkRec 0 "V" 300 300), mkRec 50 "V" 260 310])] := by
  have h := C2_oldest_first 290 30 [("S", [mkRec 0 "V" 300 300, mkRec 50 "V" 260 310])]
    [] "S" "V" 8 [] [mkRec 50 "V" 260 310] (mkRec 0 "V" 300 300)
    (by decide) rfl (by simp [sortedTs, mkRec]) (by simp) (by decide)
    ⟨mkRec 50 "V" 260 310, by simp, by decide⟩
  rw [h.2.2]
  simp [dictSet]

/-- Claim C3: a terminal prediction (matched flag set, which covers both
Matched and Phantom) is never selected by the matcher: the found candidate
is always open, the matcher's in-place mutation leaves every terminal
record untouched at its position, and the reaper leaves terminal records
unchanged. -/
theorem C3_terminal_never_selected :
    (∀ (preds : List Pred) (vid : String) (c : Pred),
       preds.find? (isCand vid) = some c → c.matched = false)
    ∧ (∀ (vid : String) (f : Pred → Pred) (preds : List Pred) (i : Nat) (p : Pred),
         preds.get? i = some p → p.matched = true →
         (updateFirst (isCand vid) f preds).get? i = some p)
    ∧ (∀ (now grace : Int) (p : Pred), p.matched = true → reapCell now grace p = p) := by
  refine ⟨?_, ?_, ?_⟩
  · intro preds vid c hfind
    have hc : isCand vid c = true := List.find?_some hfind
    have := (Bool.and_eq_true _ _).mp hc
    simpa using this.1
  · intro vid f preds
    induction preds with
    | nil => intro i p h; cases h
    | cons q rest ih =>
      intro i p hget hmatched
      by_cases hq : isCand vid q = true
      · cases i with
        | zero =>
          simp only [List.get?] at hget
          have : q = p := by injection hget
          subst this
          have := (Bool.and_eq_true _ _).mp hq
          simp [hmatched] at this
        | succ j =>
          simpa [updateFirst, hq] using hget
      · cases i with
        | zero =>
          simpa [updateFirst, hq] using hget
        | succ j =>
          have := ih j p (by simpa using hget) hmatched
          simpa [updateFirst, hq] using this
  · intro now grace p hm
    simp [reapCell, willReap, hm]

/-- Claim C4: after `update_predictions` runs at time `ts` with limit
`maxAge`, every entry of the resulting predictions map holds only
predictions of age at most `maxAge` (so no prediction strictly older
remains, whatever its status flags), and no entry with an empty list
remains. -/
theorem C4_eviction (ts maxAge : Int) (m : PredsMap) (arrivals : List Obs)
    (kv : String × List Pred)
    (hkv : kv ∈ update_predictions ts maxAge m arrivals) :
    (∀ p ∈ kv.2, ts - p.predictionTs ≤ maxAge) ∧ kv.2 ≠ [] := by
  unfold update_predictions prunePreds at hkv
  have h1 := List.mem_filter.mp hkv
  rcases List.mem_map.mp h1.1 with ⟨kv0, _hmem0, heq⟩
  constructor
  · intro p hp
    rw [← heq] at hp
    have hp2 := List.mem_filter.mp hp
    simpa using hp2.2
  · intro hnil
    have := h1.2
    rw [hnil] at this
    simp at this

/-- Witness for C4: at `ts = 2000` with `maxAge = 1500`, the record created
at time 600 survives with age within the limit and the stop's list is
nonempty, while the record created at time 0 is evicted. -/
theorem C4_eviction_witness :
    2000 - (mkRec 600 "V" 200 800).predictionTs ≤ 1500
    ∧ [mkRec 600 "V" 200 800] ≠ ([] : List Pred) := by
  have h := C4_eviction 2000 1500
    [("S", [mkRec 0 "V" 300 300, mkRec 600 "V" 200 800])] []
    ("S", [mkRec 600 "V" 200 800]) (by decide)
  exact ⟨h.1 (mkRec 600 "V" 200 800) (by simp), h.2⟩

/-- Claim C5: the reaper turns a still-open prediction phantom exactly when
`now > expectedArrivalTs + grace`, leaves a not-yet-due open prediction
open, never touches a prediction matched earlier in the same cycle (and
indeed `detect_arrivals_and_score` runs the phantom pass after the
matcher pass), and adds the number of newly reaped predictions to the
stop's phantom count. -/
theorem C5_reaper (now threshold grace : Int) (p : Pred) :
    (p.matched = false → p.expectedArrivalTs + grace < now →
       reapCell now grace p = { p with matched := true, phantom := true })
    ∧ (p.matched = false → ¬ p.expectedArrivalTs + grace < now →
       reapCell now grace p = p)
    ∧ (∀ tts, (applyMatch now tts p).matched = true
        ∧ reapCell now grace (applyMatch now tts p) = applyMatch now tts p)
    ∧ (∀ (stats : StatsMap) (kv : String × List Pred),
        dictGet (phantomStatsStep now grace stats kv) kv.1 =
          some { (dictGet stats kv.1).getD ⟨0, 0, 0⟩ with
                 phantoms := ((dictGet stats kv.1).getD ⟨0, 0, 0⟩).phantoms
                   + (kv.2.filter (willReap now grace)).length })
    ∧ (∀ (preds : PredsMap) (stats : StatsMap) (arrivals : List Obs),
        detect_arrivals_and_score now threshold grace preds stats arrivals =
          reapPhantoms now grace
            ((buildCurr arrivals).foldl (matchStep now threshold) (preds, stats))) := by
  refine ⟨?_, ?_, ?_, ?_, ?_⟩
  · intro hm hdue
    simp [reapCell, willReap, hm, hdue]
  · intro hm hnot
    simp [reapCell, willReap, hm, hnot]
  · intro tts
    refine ⟨rfl, ?_⟩
    simp [reapCell, willReap, applyMatch]
  · intro stats kv
    unfold phantomStatsStep
    rw [dictGet_dictSet]
    simp
  · intro preds stats arrivals
    rfl

/-- Witness for C5, the spec's scenario: a prediction created at `t = 0`
with `expectedArrivalTs = 300` is reaped at `t = 661 = 300 + 360 + 1`
(grace 360), and the stop's phantom count goes from 0 to 1. -/
theorem C5_reaper_witness :
    reapCell 661 360 (mkRec 0 "V" 300 300)
      = { mkRec 0 "V" 300 300 with matched := true, phantom := true }
    ∧ dictGet (phantomStatsStep 661 360 [] ("S", [mkRec 0 "V" 300 300])) "S"
      = some ⟨0, 0, 1⟩ := by
  have h := C5_reaper 661 30 360 (mkRec 0 "V" 300 300)
  refine ⟨h.1 rfl (by decide), ?_⟩
  have h4 := h.2.2.2.1 [] ("S", [mkRec 0 "V" 300 300])
  rw [h4]
  simp [dictGet, willReap, mkRec]

/-- Witness for C3: a concrete matched record is left in place by the
matcher's mutation pass and by the reaper. -/
theorem C3_terminal_never_selected_witness :
    (updateFirst (isCand "V") (applyMatch 290 8)
        [{ mkRec 0 "V" 300 300 with matched := true }]).get? 0
      = some { mkRec 0 "V" 300 300 with matched := true }
    ∧ reapCell 10000 360 { mkRec 0 "V" 300 300 with matched := true }
      = { mkRec 0 "V" 300 300 with matched := true } :=
  ⟨C3_terminal_never_selected.2.1 "V" (applyMatch 290 8)
     [{ mkRec 0 "V" 300 300 with matched := true }] 0
     { mkRec 0 "V" 300 300 with matched := true } rfl rfl,
   C3_terminal_never_selected.2.2 10000 360
     { mkRec 0 "V" 300 300 with matched := true } rfl⟩

theorem statsGe_refl (m : StatsMap) : statsGe m m :=
  fun _ s hs => ⟨s, hs, le_refl _, le_refl _⟩

theorem statsGe_trans {a b c : StatsMap} (h1 : statsGe a b) (h2 : statsGe b c) :
    statsGe a c := by
  intro sid s hs
  rcases h1 sid s hs with ⟨s1, hs1, hle1, hle1p⟩
  rcases h2 sid s1 hs1 with ⟨s2, hs2, hle2, hle2p⟩
  exact ⟨s2, hs2, le_trans hle1 hle2, le_trans hle1p hle2p⟩

theorem recordMatch_statsGe (stats : StatsMap) (sid : String) (d : Int) :
    statsGe stats (recordMatch stats sid d) := by
  intro sid' s hs
  unfold recordMatch
  rw [dictGet_dictSet]
  by_cases h : sid = sid'
  · subst h
    rw [if_pos rfl, hs]
    exact ⟨_, rfl, Nat.le_succ _, le_refl _⟩
  · rw [if_neg h]
    exact ⟨s, hs, le_refl _, le_refl _⟩

theorem phantomStatsStep_statsGe (now grace : Int) (stats : StatsMap)
    (kv : String × List Pred) : statsGe stats (phantomStatsStep now grace stats kv) := by
  intro sid' s hs
  unfold phantomStatsStep
  rw [dictGet_dictSet]
  by_cases h : kv.1 = sid'
  · subst h
    rw [if_pos rfl, hs]
    exact ⟨_, rfl, le_refl _, Nat.le_add_right _ _⟩
  · rw [if_neg h]
    exact ⟨s, hs, le_refl _, le_refl _⟩

theorem matchStep_statsGe (now threshold : Int) (st : PredsMap × StatsMap)
    (e : (String × String) × Int) :
    statsGe st.2 (matchStep now threshold st e).2 := by
  unfold matchStep
  by_cases h : threshold < e.2
  · rw [if_pos h]
    exact statsGe_refl _
  · rw [if_neg h]
    cases hf : List.find? (isCand e.1.2) ((dictGet st.1 e.1.1).getD []) with
    | none =>
      simp only [hf]
      exact statsGe_refl _
    | some cand =>
      simp only [hf]
      exact recordMatch_statsGe _ _ _

theorem foldl_matchStep_statsGe (now threshold : Int)
    (l : List ((String × String) × Int)) :
    ∀ st : PredsMap × StatsMap, statsGe st.2 ((l.foldl (matchStep now threshold) st)).2 := by
  induction l with
  | nil => intro st; exact statsGe_refl _
  | cons e rest ih =>
    intro st
    exact statsGe_trans (matchStep_statsGe now threshold st e)
      (ih (matchStep now threshold st e))

theorem foldl_phantomStatsStep_statsGe (now grace : Int)
    (l : List (String × List Pred)) :
    ∀ stats : StatsMap, statsGe stats (l.foldl (phantomStatsStep now grace) stats) := by
  induction l with
  | nil => intro stats; exact statsGe_refl _
  | cons kv rest ih =>
    intro stats
    exact statsGe_trans (phantomStatsStep_statsGe now grace stats kv)
      (ih (phantomStatsStep now grace stats kv))

/-- Counterexample to claim C6: a stop holding one open, not-yet-due
prediction goes through `detect_arrivals_and_score` with no arrivals; no
match and no phantom event happens (the prediction is unchanged), yet a
zero-valued stats entry for the stop is created by the phantom pass. -/
theorem C6_counterexample :
    detect_arrivals_and_score 100 30 360 [("S", [mkRec 0 "V" 300 300])] [] [] =
      ([("S", [mkRec 0 "V" 300 300])], [("S", ⟨0, 0, 0⟩)]) := by
  simp [detect_arrivals_and_score, buildCurr, reapPhantoms, phantomStatsStep,
    dictGet, dictSet, willReap, reapCell, mkRec]

/-- Claim C6 (amended): a StopStats entry is created by a match event
(starting at one sample carrying that drift) or by the phantom pass,
which creates an entry for every stop currently holding predictions, even
with zero counters when nothing was reaped; once present, an entry is
never removed and its sample and phantom counters never decrease across a
full matcher-plus-reaper cycle. -/
theorem C6_amended :
    (∀ (now threshold grace : Int) (preds : PredsMap) (stats : StatsMap)
       (arrivals : List Obs),
       statsGe stats (detect_arrivals_and_score now threshold grace preds stats arrivals).2)
    ∧ (∀ (stats : StatsMap) (sid : String) (d : Int), dictGet stats sid = none →
        dictGet (recordMatch stats sid d) sid = some ⟨1, (d : ℚ), 0⟩)
    ∧ (∀ (now grace : Int) (stats : StatsMap) (kv : String × List Pred),
        dictGet stats kv.1 = none →
        dictGet (phantomStatsStep now grace stats kv) kv.1 =
          some ⟨0, 0, (kv.2.filter (willReap now grace)).length⟩) := by
  refine ⟨?_, ?_, ?_⟩
  · intro now threshold grace preds stats arrivals
    unfold detect_arrivals_and_score reapPhantoms
    exact statsGe_trans
      (foldl_matchStep_statsGe now threshold (buildCurr arrivals) (preds, stats))
      (foldl_phantomStatsStep_statsGe now grace _ _)
  · intro stats sid d hnone
    unfold recordMatch
    rw [hnone, dictGet_dictSet, if_pos rfl]
    simp
  · intro now grace stats kv hnone
    unfold phantomStatsStep
    rw [hnone, dictGet_dictSet, if_pos rfl]
    simp

/-- Witness for the amended C6: running the cycle against existing stats
`⟨2, 5, 3⟩` for stop S keeps the entry with counters at least as large,
and a match on a stop with no entry creates `⟨1, drift, 0⟩`. -/
theorem C6_amended_witness :
    (∃ s', dictGet (detect_arrivals_and_score 661 30 360
        [("S", [mkRec 0 "V" 300 300])] [("S", ⟨2, 5, 3⟩)] []).2 "S" = some s'
      ∧ 2 ≤ s'.samples ∧ 3 ≤ s'.phantoms)
    ∧ dictGet (recordMatch [] "S" 7) "S" = some ⟨1, 7, 0⟩ :=
  ⟨C6_amended.1 661 30 360 [("S", [mkRec 0 "V" 300 300])] [("S", ⟨2, 5, 3⟩)] []
     "S" ⟨2, 5, 3⟩ rfl,
   C6_amended.2.1 [] "S" 7 rfl⟩

/-- Counterexample to claim C7: a batch containing the same unresolved stop
twice, with the external resolution failing, makes two external calls for
that one stop in a single cycle, not at most one. -/
theorem C7_counterexample :
    (ensure_stop_metadata (fun _ => none) []
       [⟨some "S", some "V", some 300, some 300, none, none⟩,
        ⟨some "S", some "V", some 250, some 300, none, none⟩]).2 = 2 := rfl

/-- Claim C7 (amended): per arrival record processed by the metadata cache,
an already-resolved stop incurs no external call and no change at all; an
unresolved stop incurs exactly one call for that record, and on failure
the stub (hint name, unresolved coordinates) is left intact — so a stop
occurring several times in one batch may incur several calls in the same
cycle, one per record, until a call resolves it. -/
theorem C7_amended (resolver : String → Option Resolved) (acc : StopsMap × Nat)
    (a : Obs) :
    (∀ sid st, truthyStr a.naptanId = some sid → dictGet acc.1 sid = some st →
       st.lat.isSome = true → st.lon.isSome = true →
       ensureStep resolver acc a = acc)
    ∧ (ensureStep resolver acc a).2 ≤ acc.2 + 1
    ∧ (∀ sid, truthyStr a.naptanId = some sid → dictGet acc.1 sid = none →
        resolver sid = none →
        ensureStep resolver acc a =
          (dictSet acc.1 sid ⟨none, none, stubName a sid⟩, acc.2 + 1))
    ∧ (∀ sid st, truthyStr a.naptanId = some sid → dictGet acc.1 sid = some st →
        (st.lat.isSome && st.lon.isSome) = false → resolver sid = none →
        ensureStep resolver acc a = (acc.1, acc.2 + 1)) := by
  refine ⟨?_, ?_, ?_, ?_⟩
  · intro sid st hsid hget hlat hlon
    unfold ensureStep
    rw [hsid]
    simp only [hget, hlat, hlon]
    rfl
  · unfold ensureStep
    cases hsid : truthyStr a.naptanId with
    | none => exact Nat.le_succ _
    | some sid =>
      cases hget : dictGet acc.1 sid with
      | none =>
        cases hres : resolver sid <;> simp only [hget, hres] <;> exact Nat.le_refl _
      | some st =>
        by_cases hc : (st.lat.isSome && st.lon.isSome) = true
        · simp only [hget]
          rw [if_pos hc]
          exact Nat.le_succ _
        · simp only [hget]
          rw [if_neg hc]
          cases hres : resolver sid <;> simp only [hres] <;> exact Nat.le_refl _
  · intro sid hsid hget hres
    unfold ensureStep
    rw [hsid]
    simp only [hget, hres]
  · intro sid st hsid hget hrs hres
    unfold ensureStep
    rw [hsid]
    simp only [hget, hrs, hres]
    rfl

/-- Witness for the amended C7: a resolved stop is a strict no-op, and an
absent stop with a failing resolver ends as a stub with one call made. -/
theorem C7_amended_witness :
    ensureStep (fun _ => none)
        ([("S", ⟨some 1, some 2, "Stop S"⟩)], 0)
        ⟨some "S", some "V", some 300, some 300, none, none⟩
      = ([("S", ⟨some 1, some 2, "Stop S"⟩)], 0)
    ∧ ensureStep (fun _ => none) ([], 0)
        ⟨some "S", some "V", some 300, some 300, some "Hint", none⟩
      = ([("S", ⟨none, none, "Hint"⟩)], 1) := by
  constructor
  · exact (C7_amended (fun _ => none)
      ([("S", ⟨some 1, some 2, "Stop S"⟩)], 0)
      ⟨some "S", some "V", some 300, some 300, none, none⟩).1
      "S" ⟨some 1, some 2, "Stop S"⟩ rfl rfl rfl rfl
  · have h := (C7_amended (fun _ => none) ([], 0)
      ⟨some "S", some "V", some 300, some 300, some "Hint", none⟩).2.2.1
      "S" rfl rfl rfl
    exact h.trans (by rfl)

theorem codeBias_eq_spec (st : Stats) :
    (if 0 < st.samples then st.sumDriftSec / (st.samples : ℚ) else 0)
      = specMeanDrift st := by
  unfold specMeanDrift
  rcases Nat.eq_zero_or_pos st.samples with h | h
  · simp [h]
  · rw [if_pos h, if_neg (by omega)]

theorem codeRate_eq_spec (st : Stats) :
    ((st.phantoms : ℚ) / ((max 1 (st.samples + st.phantoms) : ℕ) : ℚ))
      = specPhantomRate st := by
  unfold specPhantomRate
  rcases Nat.eq_zero_or_pos (st.samples + st.phantoms) with h | h
  · have hp : st.phantoms = 0 := by omega
    simp [h, hp]
  · rw [Nat.max_eq_right h, if_neg (by omega)]

theorem exportFeature_resolved (direction : Option String) (stats : StatsMap)
    (kv : String × StopMeta) (la lo : ℚ)
    (hla : kv.2.lat = some la) (hlo : kv.2.lon = some lo) :
    exportFeature direction stats kv =
      some { stopId := kv.1, name := kv.2.name, direction := direction,
             predictionDriftSec :=
               roundTo 1 (specMeanDrift ((dictGet stats kv.1).getD ⟨0, 0, 0⟩)),
             samples := ((dictGet stats kv.1).getD ⟨0, 0, 0⟩).samples,
             phantomRate :=
               roundTo 3 (specPhantomRate ((dictGet stats kv.1).getD ⟨0, 0, 0⟩)),
             color := bias_color (specMeanDrift ((dictGet stats kv.1).getD ⟨0, 0, 0⟩)),
             lon := lo, lat := la } := by
  unfold exportFeature
  rw [hla, hlo]
  simp only [codeBias_eq_spec, codeRate_eq_spec]

theorem exportFeature_unresolved (direction : Option String) (stats : StatsMap)
    (kv : String × StopMeta) (h : kv.2.lat = none ∨ kv.2.lon = none) :
    exportFeature direction stats kv = none := by
  unfold exportFeature
  rcases h with h | h
  · rw [h]
  · rw [h]
    cases kv.2.lat <;> rfl

theorem export_stopIds (direction : Option String) (stops : StopsMap)
    (stats : StatsMap) :
    (export_geojson direction stops stats).map (fun f => f.stopId)
      = (stops.filter (fun kv => kv.2.lat.isSome && kv.2.lon.isSome)).map
          (fun kv => kv.1) := by
  induction stops with
  | nil => rfl
  | cons kv rest ih =>
    unfold export_geojson at ih ⊢
    rw [List.filterMap_cons, List.filter_cons]
    cases hla : kv.2.lat with
    | none =>
      rw [exportFeature_unresolved direction stats kv (Or.inl hla)]
      simp [hla, ih]
    | some la =>
      cases hlo : kv.2.lon with
      | none =>
        rw [exportFeature_unresolved direction stats kv (Or.inr hlo)]
        simp [hla, hlo, ih]
      | some lo =>
        rw [exportFeature_resolved direction stats kv la lo hla hlo]
        simp [hla, hlo, ih]

/-- Claim C8: the exporter emits exactly one feature per stop with
resolved coordinates (in stops-map order) and omits every unresolved
stop; each feature carries the spec's derived metrics — mean drift
`driftSecSum / sampleCount` (0 with no samples) rounded to 1 decimal
place, the sample count, phantom rate
`phantomCount / (sampleCount + phantomCount)` (0 when the denominator is
0) rounded to 3 decimal places — and the traffic-light colour (green for
absolute mean drift below 60, amber below 180, red otherwise); both
derived metrics are well defined at zero samples and zero phantoms. -/
theorem C8_export (direction : Option String) (stops : StopsMap) (stats : StatsMap) :
    ((export_geojson direction stops stats).map (fun f => f.stopId)
       = (stops.filter (fun kv => kv.2.lat.isSome && kv.2.lon.isSome)).map
           (fun kv => kv.1))
    ∧ (∀ kv ∈ stops, ∀ la lo, kv.2.lat = some la → kv.2.lon = some lo →
        exportFeature direction stats kv =
          some { stopId := kv.1, name := kv.2.name, direction := direction,
                 predictionDriftSec :=
                   roundTo 1 (specMeanDrift ((dictGet stats kv.1).getD ⟨0, 0, 0⟩)),
                 samples := ((dictGet stats kv.1).getD ⟨0, 0, 0⟩).samples,
                 phantomRate :=
                   roundTo 3 (specPhantomRate ((dictGet stats kv.1).getD ⟨0, 0, 0⟩)),
                 color := bias_color (specMeanDrift ((dictGet stats kv.1).getD ⟨0, 0, 0⟩)),
                 lon := lo, lat := la })
    ∧ (∀ kv ∈ stops, kv.2.lat = none ∨ kv.2.lon = none →
        exportFeature direction stats kv = none)
    ∧ (∀ q : ℚ, (|q| < 60 → bias_color q = "#00ff00")
        ∧ (60 ≤ |q| → |q| < 180 → bias_color q = "#f1c40f")
        ∧ (180 ≤ |q| → bias_color q = "ff0000"))
    ∧ specMeanDrift ⟨0, 0, 0⟩ = 0 ∧ specPhantomRate ⟨0, 0, 0⟩ = 0 := by
  refine ⟨export_stopIds direction stops stats, ?_, ?_, ?_, rfl, rfl⟩
  · intro kv _ la lo hla hlo
    exact exportFeature_resolved direction stats kv la lo hla hlo
  · intro kv _ h
    exact exportFeature_unresolved direction stats kv h
  · intro q
    refine ⟨?_, ?_, ?_⟩
    · intro h
      unfold bias_color
      rw [if_pos h]
    · intro h60 h180
      unfold bias_color
      rw [if_neg (by linarith), if_pos h180]
    · intro h
      unfold bias_color
      rw [if_neg (by linarith), if_neg (by linarith)]

/-- Witness for C8: a stop with stats `⟨2, 5, 0⟩` (mean drift 5/2, phantom
rate 0) exports a green feature with those metrics, and an unresolved
stop exports nothing. -/
theorem C8_export_witness :
    exportFeature (some "inbound") [("S", ⟨2, 5, 0⟩)] ("S", ⟨some 1, some 2, "Stop S"⟩)
      = some { stopId := "S", name := "Stop S", direction := some "inbound",
               predictionDriftSec := 5 / 2, samples := 2, phantomRate := 0,
               color := "#00ff00", lon := 2, lat := 1 }
    ∧ exportFeature (some "inbound") [("S", ⟨2, 5, 0⟩)] ("T", ⟨none, none, "Stop T"⟩)
      = none := by
  have h := C8_export (some "inbound")
    [("S", ⟨some 1, some 2, "Stop S"⟩), ("T", ⟨none, none, "Stop T"⟩)]
    [("S", ⟨2, 5, 0⟩)]
  constructor
  · have h2 := h.2.1 ("S", ⟨some 1, some 2, "Stop S"⟩) (by simp) 1 2 rfl rfl
    rw [h2]
    have hst : dictGet [("S", (⟨2, 5, 0⟩ : Stats))] "S" = some ⟨2, 5, 0⟩ := rfl
    have hmean : specMeanDrift ⟨2, 5, 0⟩ = 5 / 2 := by
      unfold specMeanDrift
      norm_num
    have hrate : specPhantomRate ⟨2, 5, 0⟩ = 0 := by
      unfold specPhantomRate
      norm_num
    have hround1 : roundTo 1 (5 / 2 : ℚ) = 5 / 2 := by
      unfold roundTo pyRoundInt
      norm_num
    have hround3 : roundTo 3 (0 : ℚ) = 0 := by
      unfold roundTo pyRoundInt
      norm_num
    have hcol : bias_color (5 / 2 : ℚ) = "#00ff00" := by
      unfold bias_color
      rw [if_pos (by rw [abs_of_pos] <;> norm_num)]
    simp only [hst, Option.getD_some, hmean, hrate, hround1, hround3, hcol]
  · exact h.2.2.1 ("T", ⟨none, none, "Stop T"⟩)
      (by simp) (Or.inl rfl)

theorem ingestObs_malformed (ts : Int) (m : PredsMap) (a : Obs)
    (h : malformedObs a) : ingestObs ts m a = m := by
  unfold ingestObs
  cases h1 : truthyStr a.naptanId with
  | none => rfl
  | some sid =>
    cases h2 : truthyStr a.vehicleId with
    | none => rfl
    | some vid =>
      cases h3 : a.timeToStation with
      | none => rfl
      | some tts =>
        cases h4 : a.expectedArrival with
        | none => rfl
        | some ea =>
          exfalso
          rcases h with h | h | h | h <;> simp_all

theorem currStep_missing (acc : List ((String × String) × Int)) (a : Obs)
    (h : truthyStr a.naptanId = none ∨ truthyStr a.vehicleId = none ∨
      a.timeToStation = none) : currStep acc a = acc := by
  unfold currStep
  cases h1 : truthyStr a.naptanId with
  | none => rfl
  | some sid =>
    cases h2 : truthyStr a.vehicleId with
    | none => rfl
    | some vid =>
      cases h3 : a.timeToStation with
      | none => rfl
      | some tts =>
        exfalso
        rcases h with h | h | h <;> simp_all

/-- Counterexample to claim C9: an observation missing only the
expected-arrival timestamp is skipped by ingestion (no new prediction),
yet it is indexed by the matcher and triggers a match of an existing open
prediction — contradicting that a malformed observation triggers no
match. -/
theorem C9_counterexample :
    update_predictions 100 1500 [("S", [mkRec 0 "V" 300 300])]
        [⟨some "S", some "V", some 5, none, none, none⟩]
      = [("S", [mkRec 0 "V" 300 300])]
    ∧ (detect_arrivals_and_score 100 30 360 [("S", [mkRec 0 "V" 300 300])] []
        [⟨some "S", some "V", some 5, none, none, none⟩]).1
      = [("S", [{ mkRec 0 "V" 300 300 with
                  matched := true, actualArrivalTs := some 105, driftSec := some 195 }])] := by
  constructor
  · rfl
  · simp [detect_arrivals_and_score, buildCurr, currStep, truthyStr, dictSet, dictGet,
      matchStep, isCand, mkRec, updateFirst, applyMatch, recordMatch, reapPhantoms,
      reapCell, willReap, phantomStatsStep, List.find?, max_def]

/-- Claim C9 (amended): an observation missing any of the four required
fields creates no prediction in the ledger, and the rest of the batch is
ingested as if it were absent; an observation missing the stop id, the
vehicle id or the time-to-station is also skipped by the matcher's
indexing; but an observation missing only the expected-arrival timestamp
is still indexed by the matcher and can trigger a match. -/
theorem C9_amended :
    (∀ (ts : Int) (m : PredsMap) (a : Obs), malformedObs a → ingestObs ts m a = m)
    ∧ (∀ (ts maxAge : Int) (m : PredsMap) (pre post : List Obs) (a : Obs),
        malformedObs a →
        update_predictions ts maxAge m (pre ++ a :: post)
          = update_predictions ts maxAge m (pre ++ post))
    ∧ (∀ (pre post : List Obs) (a : Obs),
        truthyStr a.naptanId = none ∨ truthyStr a.vehicleId = none ∨
          a.timeToStation = none →
        buildCurr (pre ++ a :: post) = buildCurr (pre ++ post))
    ∧ (∀ (a : Obs) (sid vid : String) (tts : Int),
        truthyStr a.naptanId = some sid → truthyStr a.vehicleId = some vid →
        a.timeToStation = some tts → buildCurr [a] = [((sid, vid), tts)]) := by
  refine ⟨ingestObs_malformed, ?_, ?_, ?_⟩
  · intro ts maxAge m pre post a h
    unfold update_predictions
    rw [List.foldl_append, List.foldl_cons, ingestObs_malformed ts _ a h,
      ← List.foldl_append]
  · intro pre post a h
    unfold buildCurr
    rw [List.foldl_append, List.foldl_cons, currStep_missing _ a h,
      ← List.foldl_append]
  · intro a sid vid tts h1 h2 h3
    unfold buildCurr
    simp only [List.foldl_cons, List.foldl_nil]
    unfold currStep
    rw [h1, h2, h3]
    rfl

/-- Witness for the amended C9: an observation missing its vehicle id is
ignored by ingestion and by the matcher's index, while the well-formed
observation next to it is indexed normally. -/
theorem C9_amended_witness :
    ingestObs 100 [] ⟨some "S", none, some 5, some 300, none, none⟩ = []
    ∧ buildCurr [⟨some "S", none, some 5, some 300, none, none⟩,
        ⟨some "S", some "V", some 8, some 300, none, none⟩]
      = [(("S", "V"), 8)] := by
  constructor
  · exact C9_amended.1 100 [] _ (Or.inr (Or.inl rfl))
  · have h3 := C9_amended.2.2.1 []
      [⟨some "S", some "V", some 8, some 300, none, none⟩]
      ⟨some "S", none, some 5, some 300, none, none⟩ (Or.inr (Or.inl rfl))
    exact h3.trans (C9_amended.2.2.2 _ "S" "V" 8 rfl rfl rfl)

theorem updateFirst_map_identKey (q : Pred → Bool) (f : Pred → Pred)
    (hf : ∀ p, identKey (f p) = identKey p) (L : List Pred) :
    (updateFirst q f L).map identKey = L.map identKey := by
  induction L with
  | nil => rfl
  | cons p rest ih =>
    by_cases hq : q p = true
    · simp [updateFirst, hq, hf]
    · simp only [Bool.not_eq_true] at hq
      simp [updateFirst, hq, ih]

theorem identKey_applyMatch (now tts : Int) (p : Pred) :
    identKey (applyMatch now tts p) = identKey p := rfl

theorem identKey_reapCell (now grace : Int) (p : Pred) :
    identKey (reapCell now grace p) = identKey p := by
  unfold reapCell
  split <;> rfl

theorem sortedTs_of_map_identKey {L L' : List Pred}
    (h : L'.map identKey = L.map identKey) (hs : sortedTs L) : sortedTs L' := by
  unfold sortedTs at hs ⊢
  have h2 : L'.map (fun p => p.predictionTs) = L.map (fun p => p.predictionTs) := by
    have hc := congrArg (List.map (fun t : String × Int × Int × Int => t.2.1)) h
    simpa [List.map_map, Function.comp, identKey] using hc
  have hs2 : (List.map (fun p => p.predictionTs) L).Pairwise (· ≤ ·) :=
    List.pairwise_map.mpr hs
  rw [← h2] at hs2
  exact List.pairwise_map.mp hs2

theorem ingestObs_getD_cases (ts : Int) (m : PredsMap) (a : Obs) (sid : String) :
    dictGet (ingestObs ts m a) sid = dictGet m sid
    ∨ ∃ vid tts ea, dictGet (ingestObs ts m a) sid
        = some (((dictGet m sid).getD []) ++ [mkRec ts vid tts ea]) := by
  unfold ingestObs
  cases h1 : truthyStr a.naptanId with
  | none => exact Or.inl rfl
  | some sid0 =>
    cases h2 : truthyStr a.vehicleId with
    | none => exact Or.inl rfl
    | some vid =>
      cases h3 : a.timeToStation with
      | none => exact Or.inl rfl
      | some tts =>
        cases h4 : a.expectedArrival with
        | none => exact Or.inl rfl
        | some ea =>
          dsimp only
          rw [dictGet_dictSet]
          by_cases h : sid0 = sid
          · subst h
            rw [if_pos rfl]
            exact Or.inr ⟨vid, tts, ea, rfl⟩
          · rw [if_neg h]
            exact Or.inl rfl

/-- Claim C10 (implicit order preservation): ingestion only appends a
fresh record at the end of a stop's list, pruning keeps the survivors in
their original relative order (a sublist), the matcher's and the reaper's
mutations leave every record's identity fields (vehicle, creation time,
time-to-station, expected arrival) at their positions unchanged, and each
operation preserves sortedness of a stop's list by creation time — so
sequence order coincides with creation order and first-in-sequence
selection is oldest-first selection. -/
theorem C10_order_preservation :
    (∀ (ts : Int) (m : PredsMap) (a : Obs) (sid : String),
       dictGet (ingestObs ts m a) sid = dictGet m sid
       ∨ ∃ vid tts ea, dictGet (ingestObs ts m a) sid
           = some (((dictGet m sid).getD []) ++ [mkRec ts vid tts ea]))
    ∧ (∀ (ts maxAge : Int) (L : List Pred), (pruneStop ts maxAge L).Sublist L)
    ∧ (∀ (vid : String) (now tts : Int) (L : List Pred),
        (updateFirst (isCand vid) (applyMatch now tts) L).map identKey
          = L.map identKey)
    ∧ (∀ (now grace : Int) (L : List Pred),
        (L.map (reapCell now grace)).map identKey = L.map identKey)
    ∧ (∀ (ts maxAge : Int) (L : List Pred),
        sortedTs L → sortedTs (pruneStop ts maxAge L))
    ∧ (∀ (L L' : List Pred), L'.map identKey = L.map identKey →
        sortedTs L → sortedTs L')
    ∧ (∀ (ts : Int) (m : PredsMap) (a : Obs) (sid : String),
        (∀ p ∈ (dictGet m sid).getD [], p.predictionTs ≤ ts) →
        sortedTs ((dictGet m sid).getD []) →
        sortedTs ((dictGet (ingestObs ts m a) sid).getD [])) := by
  refine ⟨ingestObs_getD_cases, ?_, ?_, ?_, ?_, ?_, ?_⟩
  · intro ts maxAge L
    exact List.filter_sublist L
  · intro vid now tts L
    exact updateFirst_map_identKey _ _ (identKey_applyMatch now tts) L
  · intro now grace L
    rw [List.map_map]
    have : identKey ∘ reapCell now grace = identKey := by
      funext p
      exact identKey_reapCell now grace p
    rw [this]
  · intro ts maxAge L hs
    exact List.Pairwise.sublist (List.filter_sublist L) hs
  · intro L L' h hs
    exact sortedTs_of_map_identKey h hs
  · intro ts m a sid hb hs
    rcases ingestObs_getD_cases ts m a sid with h | ⟨vid, tts, ea, h⟩
    · rw [h]
      exact hs
    · rw [h, Option.getD_some]
      unfold sortedTs at hs ⊢
      rw [List.pairwise_append]
      refine ⟨hs, List.pairwise_singleton _ _, ?_⟩
      intro p hp r hr
      have : r = mkRec ts vid tts ea := List.mem_singleton.mp hr
      subst this
      exact hb p hp

/-- Witness for C10: on a concrete two-element stop list, pruning yields a
sublist, the matcher's mutation keeps identity fields pointwise, and
ingesting a fresh observation at a later time keeps the list sorted by
creation time. -/
theorem C10_order_preservation_witness :
    (pruneStop 2000 1500 [mkRec 0 "V" 300 300, mkRec 600 "V" 200 800]).Sublist
        [mkRec 0 "V" 300 300, mkRec 600 "V" 200 800]
    ∧ (updateFirst (isCand "V") (applyMatch 290 8)
         [mkRec 0 "V" 300 300, mkRec 50 "V" 260 310]).map identKey
       = [mkRec 0 "V" 300 300, mkRec 50 "V" 260 310].map identKey
    ∧ sortedTs ((dictGet (ingestObs 700 [("S", [mkRec 0 "V" 300 300])]
         ⟨some "S", some "W", some 120, some 820, none, none⟩) "S").getD []) :=
  ⟨C10_order_preservation.2.1 2000 1500 _,
   C10_order_preservation.2.2.1 "V" 290 8 _,
   C10_order_preservation.2.2.2.2.2.2 700 [("S", [mkRec 0 "V" 300 300])]
     ⟨some "S", some "W", some 120, some 820, none, none⟩ "S"
     (by simp [dictGet, mkRec]) (by simp [dictGet, sortedTs])⟩

end TflDrift
